import Mathlib

/-!
Verification of `gen_theme.py`: a one-shot generator that prints an
on-screen-keyboard layout configuration (a `[General]` header followed by one
`[Key_<SanitizedLabel>_<Keycode>]` section per non-gap key descriptor).

Modelling notes.
* Key widths in the source are Python floats drawn from the set
  {0.5, 1, 1.25, 1.5, 1.75, 2, 2.25, 2.75, 7}: all are exact multiples of 1/4
  (dyadic rationals with denominator dividing 4), so every product and running
  sum the script forms is exact in IEEE double arithmetic.  We embed a width as
  the natural number `width4` of quarter units it spans (4 × the Python float,
  e.g. `1.5 ↦ 6`); `qWidth` recovers the rational width, and the theorems
  relate the two through `Rat` floor lemmas.
* Python `int(x)` truncates toward zero.  `int(START_X + cur*UNIT)` is applied
  to a nonnegative value (truncation = floor) and is embedded as the kernel-
  computable `(4*START_X + cur4*UNIT) / 4` over `ℕ`.
  `int(width*UNIT - GAP)` equals `floor(width*UNIT) - GAP` for every `width4`
  (the subtrahend `GAP` is an integer, and the only negative value arising,
  at `width4 = 0`, is the exact integer `-2`), and is embedded that way.
* `print` output is embedded as a list of output lines; `print(f"\n[..]")`
  contributes an empty line followed by the bracketed line.
* Python tuples of length 3 or 5 are embedded as a record whose `rest` field
  holds the trailing optional slots (`item[3]`, `item[4]`, ...); the script's
  `len(item) > 4 and item[4]` test reads exactly those.
-/

namespace GenTheme

/-- `UNIT = 34` : base grid unit in pixels (32px key + 2px gap). -/
def UNIT : ℕ := 34

/-- `KEY_W_BASE = 32`. -/
def KEY_W_BASE : ℕ := 32

/-- `GAP = 2`. -/
def GAP : ℕ := 2

/-- `START_X = 2`. -/
def START_X : ℕ := 2

/-- `START_Y = 2`. -/
def START_Y : ℕ := 2

/-- `HEIGHT = 32`. -/
def HEIGHT : ℕ := 32

-- Keycodes (from `xmodmap -pke` on trixie), transcribed from the source.

def K_ESC : ℕ := 9

def K_F1 : ℕ := 67
def K_F2 : ℕ := 68
def K_F3 : ℕ := 69
def K_F4 : ℕ := 70
def K_F5 : ℕ := 71
def K_F6 : ℕ := 72
def K_F7 : ℕ := 73
def K_F8 : ℕ := 74
def K_F9 : ℕ := 75
def K_F10 : ℕ := 76
def K_F11 : ℕ := 95
def K_F12 : ℕ := 96
def K_PRTSC : ℕ := 107
def K_SCRLK : ℕ := 78
def K_PAUSE : ℕ := 127

def K_GRAVE : ℕ := 49
def K_1 : ℕ := 10
def K_2 : ℕ := 11
def K_3 : ℕ := 12
def K_4 : ℕ := 13
def K_5 : ℕ := 14
def K_6 : ℕ := 15
def K_7 : ℕ := 16
def K_8 : ℕ := 17
def K_9 : ℕ := 18
def K_0 : ℕ := 19
def K_MINUS : ℕ := 20
def K_EQUAL : ℕ := 21
def K_BKSP : ℕ := 22
def K_INS : ℕ := 118
def K_HOME : ℕ := 110
def K_PGUP : ℕ := 112

def K_TAB : ℕ := 23
def K_Q : ℕ := 24
def K_W : ℕ := 25
def K_E : ℕ := 26
def K_R : ℕ := 27
def K_T : ℕ := 28
def K_Y : ℕ := 29
def K_U : ℕ := 30
def K_I : ℕ := 31
def K_O : ℕ := 32
def K_P : ℕ := 33
def K_LBRACKET : ℕ := 34
def K_RBRACKET : ℕ := 35
def K_BACKSLASH : ℕ := 51
def K_DEL : ℕ := 119
def K_END : ℕ := 115
def K_PGDN : ℕ := 117

def K_CAPS : ℕ := 66
def K_A : ℕ := 38
def K_S : ℕ := 39
def K_D : ℕ := 40
def K_F : ℕ := 41
def K_G : ℕ := 42
def K_H : ℕ := 43
def K_J : ℕ := 44
def K_K : ℕ := 45
def K_L : ℕ := 46
def K_SEMICOLON : ℕ := 47
def K_QUOTE : ℕ := 48
def K_ENTER : ℕ := 36

def K_LSHIFT : ℕ := 50
def K_Z : ℕ := 52
def K_X : ℕ := 53
def K_C : ℕ := 54
def K_V : ℕ := 55
def K_B : ℕ := 56
def K_N : ℕ := 57
def K_M : ℕ := 58
def K_COMMA : ℕ := 59
def K_PERIOD : ℕ := 60
def K_SLASH : ℕ := 61
def K_RSHIFT : ℕ := 62
def K_UP : ℕ := 111

def K_LCTRL : ℕ := 37
def K_SUPER : ℕ := 133
def K_LALT : ℕ := 64
def K_SPACE : ℕ := 65
def K_RALT : ℕ := 108
def K_MENU : ℕ := 135
def K_RCTRL : ℕ := 105
def K_LEFT : ℕ := 113
def K_DOWN : ℕ := 116
def K_RIGHT : ℕ := 114

/-- A Python value occupying one of the optional trailing tuple slots
(`ForceColOffset?`, `IsToggle?`).  The fixed table only ever puts `None` or
`True` there, but we keep general booleans. -/
inductive PyOpt where
  | none
  | bool (b : Bool)
deriving DecidableEq

/-- Python truthiness of an optional-slot value (`if ... and item[4]:`). -/
def truthy : PyOpt → Bool
  | .none => false
  | .bool b => b

/-- One key descriptor `(Label, Keycode, WidthUnits, ForceColOffset?, IsToggle?)`.
The Python tuples have length 3 or 5; `rest` holds the slots past the first
three (so `item[3]` is `rest[0]` and `item[4]` is `rest[1]`).  `width4` is the
width in quarter units: 4 × the float of the source (`1 ↦ 4`, `0.5 ↦ 2`,
`1.25 ↦ 5`, `1.5 ↦ 6`, `1.75 ↦ 7`, `2 ↦ 8`, `2.25 ↦ 9`, `2.75 ↦ 11`,
`7 ↦ 28`), an exact encoding of the source's dyadic widths. -/
structure Item where
  label : String
  keycode : ℕ
  width4 : ℕ
  rest : List PyOpt
deriving DecidableEq

/-- The width of a descriptor in units, as the (exact) rational number the
source writes literally. -/
def qWidth (it : Item) : ℚ := (it.width4 : ℚ) / 4

/-- The apostrophe character (code 39), used as a key label and as a
sanitization pattern. -/
def quoteChar : Char := Char.ofNat 39

/-- The one-character string holding an apostrophe. -/
def quoteStr : String := String.singleton quoteChar

/-- `tkl_layout`: the fixed table of rows of key descriptors, transcribed from
the source; widths are in quarter units (`width4`, 4 × the source's float:
the source's `1` appears as `4`, `0.5` as `2`, `1.5` as `6`, `1.75` as `7`,
`2` as `8`, `2.25` as `9`, `2.75` as `11`, `1.25` as `5`, `7` as `28`). -/
def tkl_layout : List (List Item) := [
  -- Row 0
  [⟨"Esc", K_ESC, 4, []⟩, ⟨"GAP", 0, 4, []⟩,
   ⟨"F1", K_F1, 4, []⟩, ⟨"F2", K_F2, 4, []⟩, ⟨"F3", K_F3, 4, []⟩, ⟨"F4", K_F4, 4, []⟩,
   ⟨"GAP", 0, 2, []⟩,
   ⟨"F5", K_F5, 4, []⟩, ⟨"F6", K_F6, 4, []⟩, ⟨"F7", K_F7, 4, []⟩, ⟨"F8", K_F8, 4, []⟩,
   ⟨"GAP", 0, 2, []⟩,
   ⟨"F9", K_F9, 4, []⟩, ⟨"F10", K_F10, 4, []⟩, ⟨"F11", K_F11, 4, []⟩, ⟨"F12", K_F12, 4, []⟩,
   ⟨"GAP", 0, 2, []⟩,
   ⟨"PrtSc", K_PRTSC, 4, []⟩, ⟨"ScrLk", K_SCRLK, 4, []⟩, ⟨"Pause", K_PAUSE, 4, []⟩],
  -- Row 1
  [⟨"`", K_GRAVE, 4, []⟩, ⟨"1", K_1, 4, []⟩, ⟨"2", K_2, 4, []⟩, ⟨"3", K_3, 4, []⟩,
   ⟨"4", K_4, 4, []⟩, ⟨"5", K_5, 4, []⟩, ⟨"6", K_6, 4, []⟩, ⟨"7", K_7, 4, []⟩,
   ⟨"8", K_8, 4, []⟩, ⟨"9", K_9, 4, []⟩, ⟨"0", K_0, 4, []⟩,
   ⟨"-", K_MINUS, 4, []⟩, ⟨"=", K_EQUAL, 4, []⟩, ⟨"Bksp", K_BKSP, 8, []⟩,
   ⟨"GAP", 0, 2, []⟩,
   ⟨"Ins", K_INS, 4, []⟩, ⟨"Home", K_HOME, 4, []⟩, ⟨"PgUp", K_PGUP, 4, []⟩],
  -- Row 2
  [⟨"Tab", K_TAB, 6, []⟩, ⟨"Q", K_Q, 4, []⟩, ⟨"W", K_W, 4, []⟩, ⟨"E", K_E, 4, []⟩,
   ⟨"R", K_R, 4, []⟩, ⟨"T", K_T, 4, []⟩, ⟨"Y", K_Y, 4, []⟩, ⟨"U", K_U, 4, []⟩,
   ⟨"I", K_I, 4, []⟩, ⟨"O", K_O, 4, []⟩, ⟨"P", K_P, 4, []⟩,
   ⟨"[", K_LBRACKET, 4, []⟩, ⟨"]", K_RBRACKET, 4, []⟩, ⟨"\\", K_BACKSLASH, 6, []⟩,
   ⟨"GAP", 0, 2, []⟩,
   ⟨"Del", K_DEL, 4, []⟩, ⟨"End", K_END, 4, []⟩, ⟨"PgDn", K_PGDN, 4, []⟩],
  -- Row 3
  [⟨"Caps", K_CAPS, 7, []⟩, ⟨"A", K_A, 4, []⟩, ⟨"S", K_S, 4, []⟩, ⟨"D", K_D, 4, []⟩,
   ⟨"F", K_F, 4, []⟩, ⟨"G", K_G, 4, []⟩, ⟨"H", K_H, 4, []⟩, ⟨"J", K_J, 4, []⟩,
   ⟨"K", K_K, 4, []⟩, ⟨"L", K_L, 4, []⟩, ⟨";", K_SEMICOLON, 4, []⟩,
   ⟨quoteStr, K_QUOTE, 4, []⟩, ⟨"Enter", K_ENTER, 9, []⟩],
  -- Row 4
  [⟨"Shift", K_LSHIFT, 9, [.none, .bool true]⟩, ⟨"Z", K_Z, 4, []⟩, ⟨"X", K_X, 4, []⟩,
   ⟨"C", K_C, 4, []⟩, ⟨"V", K_V, 4, []⟩, ⟨"B", K_B, 4, []⟩, ⟨"N", K_N, 4, []⟩,
   ⟨"M", K_M, 4, []⟩, ⟨",", K_COMMA, 4, []⟩, ⟨".", K_PERIOD, 4, []⟩,
   ⟨"/", K_SLASH, 4, []⟩, ⟨"Shift", K_RSHIFT, 11, [.none, .bool true]⟩,
   ⟨"GAP", 0, 6, []⟩, ⟨"Up", K_UP, 4, []⟩],
  -- Row 5
  [⟨"Ctrl", K_LCTRL, 6, [.none, .bool true]⟩, ⟨"Win", K_SUPER, 5, [.none, .bool true]⟩,
   ⟨"Alt", K_LALT, 5, [.none, .bool true]⟩, ⟨"Space", K_SPACE, 28, []⟩,
   ⟨"Alt", K_RALT, 5, [.none, .bool true]⟩, ⟨"Menu", K_MENU, 5, [.none, .bool true]⟩,
   ⟨"Ctrl", K_RCTRL, 6, [.none, .bool true]⟩, ⟨"GAP", 0, 2, []⟩,
   ⟨"Left", K_LEFT, 4, []⟩, ⟨"Down", K_DOWN, 4, []⟩, ⟨"Right", K_RIGHT, 4, []⟩]
]

/-- Replacement of every occurrence of the single character `c` in `s` by the
string `r`: the effect of Python `s.replace(p, r)` when the pattern `p` is one
character long (as in every `replace` call of the script) and `r` avoids the
characters replaced later in the chain (all substitutes are purely
alphabetic). -/
def replaceChar (s : String) (c : Char) (r : String) : String :=
  String.join (s.toList.map (fun ch => if ch = c then r else String.singleton ch))

/-- `safe_label`: the source's chain of `replace` calls sanitizing a label. -/
def safe_label (label : String) : String :=
  replaceChar (replaceChar (replaceChar (replaceChar (replaceChar (replaceChar
    (replaceChar (replaceChar (replaceChar (replaceChar (replaceChar label
      (Char.ofNat 96) "Backtick")
      (Char.ofNat 92) "Backslash")
      (Char.ofNat 91) "LBr")
      (Char.ofNat 93) "RBr")
      (Char.ofNat 61) "Equal")
      (Char.ofNat 59) "Colon")
      quoteChar "Quote")
      (Char.ofNat 44) "Comma")
      (Char.ofNat 46) "Dot")
      (Char.ofNat 47) "Slash")
      (Char.ofNat 45) "Dash"

/-- `section_name = f"Key_{safe_label}_{keycode}"`. -/
def section_name (it : Item) : String :=
  "Key_" ++ safe_label it.label ++ "_" ++ toString it.keycode

/-- `is_toggle`: true when the tuple has more than four slots and the fifth is
truthy (`len(item) > 4 and item[4]`). -/
def is_toggle (it : Item) : Bool :=
  match it.rest with
  | _ :: f :: _ => truthy f
  | _ => false

/-- `x_pos = int(START_X + current_x_units * UNIT)`: with the running offset
held as `cur4` quarter units the argument is the nonnegative exact rational
`(4*START_X + cur4*UNIT) / 4`, so Python truncation is this floor division. -/
def x_pos (cur4 : ℕ) : ℤ :=
  ((4 * START_X + cur4 * UNIT) / 4 : ℕ)

/-- `w_pos = int(width_units * UNIT - GAP)`: equals
`floor(width_units * UNIT) - GAP` for every quarter-unit width (the
subtrahend is an integer, and the only negative argument, at `width4 = 0`,
is exactly `-GAP`), and `floor(width_units * UNIT)` is the floor division
`width4 * UNIT / 4`. -/
def w_pos (it : Item) : ℤ :=
  ((it.width4 * UNIT / 4 : ℕ) : ℤ) - (GAP : ℤ)

/-- One emitted key section: the values the script prints for one non-gap
descriptor, in the script's field order. -/
structure KeySection where
  name : String
  x : ℤ
  y : ℤ
  width : ℤ
  height : ℕ
  keycode : ℕ
  toggle : Bool
  label : String
deriving DecidableEq

/-- The section the script emits for the non-gap descriptor `it` when the
running horizontal offset is `cur4` quarter units and the row's vertical
position is `y_pos`. -/
def sectionOf (y_pos : ℤ) (cur4 : ℕ) (it : Item) : KeySection :=
  { name := section_name it
    x := x_pos cur4
    y := y_pos
    width := w_pos it
    height := HEIGHT
    keycode := it.keycode
    toggle := is_toggle it
    label := it.label }

/-- The inner loop over one row: `current_x_units` starts at `cur4` quarter
units; a `"GAP"` descriptor only advances the offset, every other descriptor
emits a section and advances the offset. -/
def rowSecs (y_pos : ℤ) : List Item → ℕ → List KeySection
  | [], _ => []
  | it :: row, cur4 =>
    if it.label = "GAP" then rowSecs y_pos row (cur4 + it.width4)
    else sectionOf y_pos cur4 it :: rowSecs y_pos row (cur4 + it.width4)

/-- `y_pos = START_Y + r_idx * UNIT`: the vertical pixel position of row
`r_idx` (pure integer arithmetic in the source). -/
def rowY (r_idx : ℕ) : ℤ :=
  ((START_Y + r_idx * UNIT : ℕ) : ℤ)

/-- All sections emitted for a layout table, row-major: row `r_idx` sits at
`rowY r_idx` and its offset starts at `0`. -/
def layoutSections (layout : List (List Item)) : List KeySection :=
  (layout.enum.map (fun p => rowSecs (rowY p.1) p.2 0)).flatten

/-- The four `[General]` header lines. -/
def headerLines : List String :=
  ["[General]",
   "width=" ++ toString (19 * UNIT),
   "height=" ++ toString (6 * UNIT + 4),
   "background_color=#0A0A0A"]

/-- The lines printed for one key section: `print(f"\n[{section_name}]")`
yields an empty line and the bracketed name, then the fields in the script's
order, `toggle=true` only when the toggle flag is set. -/
def renderSection (s : KeySection) : List String :=
  ["", "[" ++ s.name ++ "]",
   "x=" ++ toString s.x,
   "y=" ++ toString s.y,
   "width=" ++ toString s.width,
   "height=" ++ toString s.height,
   "keycode=" ++ toString s.keycode]
  ++ (if s.toggle then ["toggle=true"] else [])
  ++ ["label=" ++ s.label]

/-- The whole standard output of the script on a layout table, as a list of
lines. -/
def layoutOutput (layout : List (List Item)) : List String :=
  headerLines ++ ((layoutSections layout).map renderSection).flatten

/-- The sections the script emits on its fixed table. -/
def allSections : List KeySection := layoutSections tkl_layout

/-- The lines the script actually prints. -/
def output : List String := layoutOutput tkl_layout

/-- The non-gap descriptors of the fixed table, in row-major order. -/
def nonGapItems : List Item :=
  tkl_layout.flatten.filter (fun it => it.label != "GAP")

/-- The sum of a row's widths in quarter units (gaps included). -/
def rowUnits4 (row : List Item) : ℕ :=
  (row.map (fun it => it.width4)).sum

/-- The sum of a row's unit-widths (gaps included) as a rational number, the
quantity the spec multiplies by the base unit. -/
def rowUnitsSum (row : List Item) : ℚ :=
  (row.map qWidth).sum

/-- A row's occupied pixel width: the last emitted key's `x` plus its emitted
width, minus the starting x offset (`0` for a row emitting no key). -/
def rowOccupied (y_pos : ℤ) (row : List Item) : ℤ :=
  match (rowSecs y_pos row 0).getLast? with
  | some s => s.x + s.width - (START_X : ℤ)
  | Option.none => 0

/-- Two descriptors that agree except possibly in the reserved fourth tuple
slot (`item[3]`, i.e. `rest[0]`): labels, keycodes, widths and all later
optional slots coincide. -/
def sameExceptFourth (a b : Item) : Prop :=
  a.label = b.label ∧ a.keycode = b.keycode ∧ a.width4 = b.width4 ∧
    a.rest.drop 1 = b.rest.drop 1

/-- The first descriptor of the table (`("Esc", K_ESC, 1)`). -/
def escItem : Item := ⟨"Esc", K_ESC, 4, []⟩

/-- The section emitted for the Esc key. -/
def escSection : KeySection := ⟨"Key_Esc_9", 2, 2, 32, 32, 9, false, "Esc"⟩

/-- A half-unit gap descriptor (`("GAP", 0, 0.5)`), as it occurs throughout
the fixed table. -/
def gapHalf : Item := ⟨"GAP", 0, 2, []⟩

/-- Row index 3 of the fixed table (the home row ending in Enter). -/
def row3 : List Item := tkl_layout.getD 3 []

-- Helper lemmas bridging the quarter-unit embedding with the rational-width
-- formulas of the spec.

/-- The floor of `width_units * UNIT` in quarter units is the floor division
`width4 * UNIT / 4`. -/
lemma floor_quarter_mul (s : ℕ) :
    Int.floor ((s : ℚ) / 4 * (UNIT : ℚ)) = ((s * UNIT / 4 : ℕ) : ℤ) := by
  have h : ((s : ℚ) / 4 * (UNIT : ℚ)) = ((s * UNIT : ℕ) : ℚ) / ((4 : ℕ) : ℚ) := by
    push_cast
    ring
  rw [h, Rat.floor_natCast_div_natCast]
  exact_mod_cast rfl

/-- The rational unit-width sum of a row is its quarter-unit sum divided
by `4`. -/
lemma rowUnitsSum_eq (row : List Item) :
    rowUnitsSum row = (rowUnits4 row : ℚ) / 4 := by
  induction row with
  | nil => simp [rowUnitsSum, rowUnits4]
  | cons it row ih =>
    simp only [rowUnitsSum, rowUnits4, List.map_cons, List.sum_cons] at ih ⊢
    rw [qWidth, ih]
    push_cast
    ring

/-- The toggle flag only reads the optional slots past the fourth. -/
def toggleOfDrop (l : List PyOpt) : Bool :=
  match l with
  | f :: _ => truthy f
  | [] => false

lemma is_toggle_eq (it : Item) : is_toggle it = toggleOfDrop (it.rest.drop 1) := by
  obtain ⟨l, k, w, r⟩ := it
  cases r with
  | nil => rfl
  | cons x t =>
    cases t with
    | nil => rfl
    | cons f t2 => rfl

lemma is_toggle_congr {a b : Item} (h : a.rest.drop 1 = b.rest.drop 1) :
    is_toggle a = is_toggle b := by
  rw [is_toggle_eq, is_toggle_eq, h]

/-- Advancing the running offset by `w` quarter units shifts the emitted `x`
by exactly `m` pixels when `w * UNIT = 4 * m` (a whole number of pixels). -/
lemma x_pos_add (c w m : ℕ) (hm : w * UNIT = 4 * m) :
    x_pos (c + w) = x_pos c + (m : ℤ) := by
  unfold x_pos
  have h : 4 * START_X + (c + w) * UNIT = (4 * START_X + c * UNIT) + 4 * m := by
    rw [← hm]
    ring
  rw [h, Nat.add_mul_div_left _ _ (by norm_num : 0 < 4)]
  push_cast
  ring

/-- Emitting a row from an offset advanced by `w` quarter units produces the
same sections with every `x` shifted by `m` pixels, when `w * UNIT = 4 * m`. -/
lemma rowSecs_shift (y : ℤ) (w m : ℕ) (hm : w * UNIT = 4 * m) :
    ∀ (row : List Item) (cur4 : ℕ),
      rowSecs y row (cur4 + w)
        = (rowSecs y row cur4).map (fun s => { s with x := s.x + (m : ℤ) }) := by
  intro row
  induction row with
  | nil => intro cur4; rfl
  | cons it row ih =>
    intro cur4
    by_cases hgap : it.label = "GAP"
    · simp only [rowSecs, if_pos hgap]
      have h : cur4 + w + it.width4 = (cur4 + it.width4) + w := by ring
      rw [h, ih]
    · simp only [rowSecs, if_neg hgap, List.map_cons]
      have h : cur4 + w + it.width4 = (cur4 + it.width4) + w := by ring
      rw [h, ih]
      have hx := x_pos_add cur4 w m hm
      simp [sectionOf, hx]

/-- Emission of a row only depends on the descriptor data other than the
fourth tuple slot. -/
lemma rowSecs_congr (y : ℤ) {row r : List Item}
    (h : List.Forall₂ sameExceptFourth row r) :
    ∀ cur4 : ℕ, rowSecs y row cur4 = rowSecs y r cur4 := by
  induction h with
  | nil => intro cur4; rfl
  | @cons a b row r hab htail ih =>
    intro cur4
    obtain ⟨hl, hk, hw, hr⟩ := hab
    have hsec : sectionOf y cur4 a = sectionOf y cur4 b := by
      simp only [sectionOf, section_name, w_pos, hl, hk, hw, is_toggle_congr hr]
    simp only [rowSecs, hl, hw, hsec, ih (cur4 + b.width4)]

/-- Emission of the rows, with their indices, only depends on the descriptor
data other than the fourth tuple slot. -/
lemma sections_congr {L M : List (List Item)}
    (h : List.Forall₂ (List.Forall₂ sameExceptFourth) L M) :
    ∀ n : ℕ, (List.enumFrom n L).map (fun p => rowSecs (rowY p.1) p.2 0)
      = (List.enumFrom n M).map (fun p => rowSecs (rowY p.1) p.2 0) := by
  induction h with
  | nil => intro n; rfl
  | @cons row r L M hrow htail ih =>
    intro n
    simp only [List.enumFrom, List.map_cons]
    rw [rowSecs_congr (rowY n) hrow 0, ih (n + 1)]

/-- Casting a scaled integer identity down to the rational equality
`s/4 * UNIT = t`. -/
lemma qscale (s : ℕ) (t : ℤ) (h : (s * UNIT : ℤ) = 4 * t) :
    (s : ℚ) / 4 * (UNIT : ℚ) = (t : ℚ) := by
  have h4 : ((s : ℚ) * (UNIT : ℚ)) = 4 * (t : ℚ) := by exact_mod_cast h
  field_simp
  linarith [h4]

/-- Casting a scaled integer identity down to the rational equality
`s/4 * UNIT = t + 1`. -/
lemma qscale1 (s : ℕ) (t : ℤ) (h : (s * UNIT : ℤ) = 4 * t + 4) :
    (s : ℚ) / 4 * (UNIT : ℚ) = (t : ℚ) + 1 := by
  have h4 : ((s : ℚ) * (UNIT : ℚ)) = 4 * (t : ℚ) + 4 := by exact_mod_cast h
  field_simp
  linarith [h4]

/-- C1: for every pair of distinct non-gap key descriptors anywhere in the
fixed layout table, the generated section names `Key_<SanitizedLabel>_<Keycode>`
are pairwise distinct, including for descriptors sharing a display label. -/
theorem c1_section_names_distinct : (nonGapItems.map section_name).Nodup := by
  decide

/-- C2: for every non-gap descriptor of the fixed table, the emitted pixel
width equals `⌊width_units * UNIT⌋ - GAP` (with base unit 34 and gap 2), and
is strictly positive. -/
theorem c2_width_formula :
    ∀ it ∈ nonGapItems,
      w_pos it = Int.floor (qWidth it * (UNIT : ℚ)) - (GAP : ℤ) ∧ 0 < w_pos it := by
  have hpos : ∀ it ∈ nonGapItems, 0 < w_pos it := by decide
  intro it hit
  refine ⟨?_, hpos it hit⟩
  rw [qWidth, floor_quarter_mul]
  rfl

theorem c2_width_formula_witness :
    escItem ∈ nonGapItems ∧
      (w_pos escItem = Int.floor (qWidth escItem * (UNIT : ℚ)) - (GAP : ℤ) ∧
        0 < w_pos escItem) :=
  ⟨by decide, c2_width_formula escItem (by decide)⟩

/-- C3, counterexample: it is not the case that for every row the sum of
unit-widths times the base unit equals the occupied pixel width plus the
trailing gap — row 3 (Caps ... Enter) violates it (510 versus 507 + 2). -/
theorem c3_row_sum_counterexample :
    ¬ ∀ p ∈ tkl_layout.enum,
        rowUnitsSum p.2 * (UNIT : ℚ) = (rowOccupied (rowY p.1) p.2 : ℚ) + (GAP : ℚ) := by
  intro h
  have h3 := h (3, row3) (by decide)
  dsimp only at h3
  rw [rowUnitsSum_eq] at h3
  have e1 : rowUnits4 row3 = 60 := by decide
  have e2 : rowOccupied (rowY 3) row3 = 507 := by decide
  rw [e1, e2] at h3
  norm_num [UNIT, GAP] at h3

/-- C3, amended: for every row other than row 3, the sum of unit-widths of
all descriptors (gaps included) times the base unit equals the occupied pixel
width plus the trailing gap; for row 3 the product exceeds it by exactly 1
pixel, lost to integer truncation of the Enter key's x and width. -/
theorem c3_row_sum_amended :
    (∀ p ∈ tkl_layout.enum, p.1 ≠ 3 →
        rowUnitsSum p.2 * (UNIT : ℚ) = (rowOccupied (rowY p.1) p.2 : ℚ) + (GAP : ℚ)) ∧
    (∀ p ∈ tkl_layout.enum, p.1 = 3 →
        rowUnitsSum p.2 * (UNIT : ℚ) = (rowOccupied (rowY p.1) p.2 : ℚ) + (GAP : ℚ) + 1) := by
  have key : ∀ p ∈ tkl_layout.enum, p.1 ≠ 3 →
      ((rowUnits4 p.2 * UNIT : ℕ) : ℤ) = 4 * (rowOccupied (rowY p.1) p.2 + (GAP : ℤ)) := by
    decide
  have key3 : ∀ p ∈ tkl_layout.enum, p.1 = 3 →
      ((rowUnits4 p.2 * UNIT : ℕ) : ℤ) = 4 * (rowOccupied (rowY p.1) p.2 + (GAP : ℤ)) + 4 := by
    decide
  constructor
  · intro p hp hne
    rw [rowUnitsSum_eq]
    have h2 := qscale (rowUnits4 p.2) (rowOccupied (rowY p.1) p.2 + (GAP : ℤ))
      (by exact_mod_cast key p hp hne)
    rw [h2]
    push_cast
    ring
  · intro p hp he
    rw [rowUnitsSum_eq]
    have h2 := qscale1 (rowUnits4 p.2) (rowOccupied (rowY p.1) p.2 + (GAP : ℤ))
      (by exact_mod_cast key3 p hp he)
    rw [h2]
    push_cast
    ring

theorem c3_row_sum_amended_witness :
    ((0, tkl_layout.getD 0 []) ∈ tkl_layout.enum ∧ (0 : ℕ) ≠ 3 ∧
        rowUnitsSum (tkl_layout.getD 0 [])
          * (UNIT : ℚ) = (rowOccupied (rowY 0) (tkl_layout.getD 0 []) : ℚ) + (GAP : ℚ)) ∧
      ((3, row3) ∈ tkl_layout.enum ∧
        rowUnitsSum row3 * (UNIT : ℚ) = (rowOccupied (rowY 3) row3 : ℚ) + (GAP : ℚ) + 1) :=
  ⟨⟨by decide, by decide, c3_row_sum_amended.1 (0, tkl_layout.getD 0 []) (by decide) (by decide)⟩,
   ⟨by decide, c3_row_sum_amended.2 (3, row3) (by decide) rfl⟩⟩

/-- C4: the first descriptor of the first row ("Esc", keycode 9, width 1)
yields the first section, named `Key_Esc_9`, with x=2, y=2, width=32,
height=32, keycode=9, label=Esc and no toggle field (its twelve first output
lines are the header followed by exactly these fields). -/
theorem c4_esc_section :
    allSections.head? = some ⟨"Key_Esc_9", 2, 2, 32, 32, 9, false, "Esc"⟩ ∧
      output.take 12 = ["[General]", "width=646", "height=208", "background_color=#0A0A0A",
        "", "[Key_Esc_9]", "x=2", "y=2", "width=32", "height=32", "keycode=9", "label=Esc"] := by
  decide

set_option maxRecDepth 4096 in
/-- C5: the output starts with the `[General]` header record — before any key
section — containing exactly width=646 (= 19 × 34), height=208 (= 6 × 34 + 4)
and background_color=#0A0A0A. -/
theorem c5_general_header :
    output.take 4 = ["[General]", "width=646", "height=208", "background_color=#0A0A0A"] ∧
      output.take 4 = headerLines ∧
      output[4]? = some "" ∧ output[5]? = some "[Key_Esc_9]" ∧
      19 * UNIT = 646 ∧ 6 * UNIT + 4 = 208 := by
  decide

/-- C6: after the header exactly one section is emitted per non-gap
descriptor, in row-major table order, with the label field carrying the
original unsanitized text, and each section's lines are, in order: the blank
separator and name, then x, y, width, height, keycode, toggle (only when
set), label. -/
theorem c6_sections_order_and_fields :
    allSections.map (fun s => (s.label, s.keycode))
        = nonGapItems.map (fun it => (it.label, it.keycode)) ∧
      output = headerLines ++ (allSections.map (fun s =>
        ["", "[" ++ s.name ++ "]",
         "x=" ++ toString s.x,
         "y=" ++ toString s.y,
         "width=" ++ toString s.width,
         "height=" ++ toString s.height,
         "keycode=" ++ toString s.keycode]
        ++ (if s.toggle then ["toggle=true"] else [])
        ++ ["label=" ++ s.label])).flatten :=
  ⟨by decide, rfl⟩

/-- C7: a key section contains the line `toggle=true` exactly when the
descriptor's fifth field is present and truthy; over the fixed table this
holds precisely for both Shift keys, both Ctrl keys, both Alt keys, the
Super (Win) key and the Menu key, and for no other section. -/
theorem c7_toggle_iff :
    allSections.map (fun s => s.toggle) = nonGapItems.map is_toggle ∧
      (allSections.filter (fun s => (renderSection s).contains "toggle=true")).map
          (fun s => s.name)
        = ["Key_Shift_50", "Key_Shift_62", "Key_Ctrl_37", "Key_Win_133", "Key_Alt_64",
           "Key_Alt_108", "Key_Menu_135", "Key_Ctrl_105"] ∧
      (allSections.filter (fun s => s.toggle)).map (fun s => s.name)
        = ["Key_Shift_50", "Key_Shift_62", "Key_Ctrl_37", "Key_Win_133", "Key_Alt_64",
           "Key_Alt_108", "Key_Menu_135", "Key_Ctrl_105"] := by
  decide

/-- C8: a "GAP" descriptor emits no section and only advances the running
offset by its width; every following key of the row is emitted with its x
shifted by exactly `width_units * UNIT` pixels (which is the integer `m` of
`width4 * UNIT = 4 * m`), and every gap of the fixed table has such a
whole-pixel width. -/
theorem c8_gap_shift :
    (∀ (g : Item), g.label = "GAP" → ∀ (m : ℕ), g.width4 * UNIT = 4 * m →
        qWidth g * (UNIT : ℚ) = (m : ℚ) ∧
        ∀ (y : ℤ) (row : List Item) (cur4 : ℕ),
          rowSecs y (g :: row) cur4
            = (rowSecs y row cur4).map (fun s => { s with x := s.x + (m : ℤ) })) ∧
    (∀ g ∈ tkl_layout.flatten, g.label = "GAP" → g.width4 * UNIT % 4 = 0) := by
  constructor
  · intro g hg m hm
    constructor
    · have h := qscale g.width4 (m : ℤ) (by exact_mod_cast hm)
      rw [qWidth]
      exact_mod_cast h
    · intro y row cur4
      have h1 : rowSecs y (g :: row) cur4 = rowSecs y row (cur4 + g.width4) := by
        simp [rowSecs, hg]
      rw [h1, rowSecs_shift y g.width4 m hm]
  · decide

theorem c8_gap_shift_witness :
    qWidth gapHalf * (UNIT : ℚ) = (17 : ℚ) ∧
      rowSecs (rowY 0) [gapHalf, escItem] 0
        = (rowSecs (rowY 0) [escItem] 0).map (fun s => { s with x := s.x + (17 : ℤ) }) ∧
      gapHalf.width4 * UNIT % 4 = 0 :=
  ⟨(c8_gap_shift.1 gapHalf rfl 17 (by decide)).1,
   (c8_gap_shift.1 gapHalf rfl 17 (by decide)).2 (rowY 0) [escItem] 0,
   c8_gap_shift.2 gapHalf (by decide) rfl⟩

/-- C9: the emission never reads the reserved fourth tuple field — two layout
tables that differ only in the fourth fields of their descriptors generate
identical output text. -/
theorem c9_fourth_field_unread (L M : List (List Item))
    (h : List.Forall₂ (List.Forall₂ sameExceptFourth) L M) :
    layoutOutput L = layoutOutput M := by
  have hs : layoutSections L = layoutSections M := by
    unfold layoutSections
    rw [show L.enum = List.enumFrom 0 L from rfl,
      show M.enum = List.enumFrom 0 M from rfl, sections_congr h 0]
  simp only [layoutOutput, hs]

theorem c9_fourth_field_unread_witness :
    layoutOutput [[⟨"Esc", 9, 4, [PyOpt.none]⟩]]
      = layoutOutput [[⟨"Esc", 9, 4, [PyOpt.bool true]⟩]] :=
  c9_fourth_field_unread _ _
    (List.Forall₂.cons (List.Forall₂.cons ⟨rfl, rfl, rfl, rfl⟩ List.Forall₂.nil)
      List.Forall₂.nil)

/-- C10: every emitted key section lies inside the rectangle declared by the
`[General]` header: x ≥ 2, y ≥ 2, x + width ≤ 646, y + height ≤ 208. -/
theorem c10_sections_within_bounds :
    ∀ s ∈ allSections,
      (2 : ℤ) ≤ s.x ∧ (2 : ℤ) ≤ s.y ∧ s.x + s.width ≤ 646 ∧ s.y + (s.height : ℤ) ≤ 208 := by
  decide

theorem c10_sections_within_bounds_witness :
    escSection ∈ allSections ∧
      ((2 : ℤ) ≤ escSection.x ∧ (2 : ℤ) ≤ escSection.y ∧
        escSection.x + escSection.width ≤ 646 ∧
        escSection.y + (escSection.height : ℤ) ≤ 208) :=
  ⟨by decide, c10_sections_within_bounds escSection (by decide)⟩

end GenTheme
